import Mathlib

/-
Verification of the json_position library (src/lib.rs): a single-pass
offset-to-path scanner over raw JSON text, together with its dotted-path
renderer and its two public entry points `path` and `dot_path`.

The Rust code is shallowly embedded: `Vec<T>` becomes `List T` with push at
the end (`++ [x]`), `last()` is `getLast?`, `pop()` is `dropLast`;
`usize` becomes `Nat`; the character buffer `Vec<char>` becomes `List Char`.
Rust panics (out-of-bounds indexing, usize underflow) are modelled by an
explicit `panicked` outcome.  Loops are run on an explicit iteration budget
(`fuel`); exhaustion is a distinct `fuelOut` outcome, and theorems below show
the budgets used by the entry points can never be exhausted, so a proved
`panicked` result is a genuine panic of the source program.

The external validator crate `oxidized_json_checker` is not part of this
repository; it is modelled from the spec as a checker for the standard JSON
grammar that reports a message and position on failure.
-/

namespace JsonPos

/-- `Index`: one path segment, from `enum Index` in src/lib.rs. -/
inductive Index where
  | Array (i : Nat)
  | Object (key : String)
deriving DecidableEq, Repr

/-- `Index::increment`: adds one to an `Array` segment, leaves `Object` unchanged. -/
def Index.increment : Index → Index
  | .Array i => .Array (i + 1)
  | .Object key => .Object key

/-- `impl Display for Index`: an array segment renders as the decimal string of
its integer, an object segment as its raw key text. -/
def Index.fmt : Index → String
  | .Array i => toString i
  | .Object key => key

/-- `enum Current`: the kind of container currently open (`None` is the sentinel). -/
inductive Current where
  | Array
  | Object
  | None
deriving DecidableEq, Repr

/-- Result of one run of the `end_quote` scan loop.  `panicked` marks an
out-of-bounds `chars[i]` access in the Rust source; `fuelOut` marks exhaustion
of the iteration budget (shown unreachable in `end_quote_no_fuelOut`). -/
inductive EQRes where
  | ret (i : Nat)
  | panicked
  | fuelOut
deriving DecidableEq, Repr

/-- `fn end_quote(chars: &Vec<char>, start: usize) -> usize`, from src/lib.rs:

    let mut i = start;
    while i < chars.len() {
        if chars[i] == backslash { i += 2; }
        if chars[i] == quote { break; }
        i += 1;
    }
    i

One recursive call models one loop iteration.  When the first test fires,
the second test reads `chars[i+2]`, which is out of bounds whenever
`i + 2 >= chars.len()`: that is the `panicked` case.  `fuel` bounds the number
of iterations; the loop index grows by at least one per iteration, so
`chars.length + 1` iterations always suffice (proved in `end_quote_no_fuelOut`). -/
def end_quote (chars : List Char) (fuel : Nat) (i : Nat) : EQRes :=
  match fuel with
  | 0 => if i < chars.length then .fuelOut else .ret i
  | fuel + 1 =>
    if h : i < chars.length then
      if chars.get ⟨i, h⟩ = '\\' then
        if h2 : i + 2 < chars.length then
          if chars.get ⟨i + 2, h2⟩ = '"' then .ret (i + 2)
          else end_quote chars fuel (i + 3)
        else .panicked
      else if chars.get ⟨i, h⟩ = '"' then .ret i
      else end_quote chars fuel (i + 1)
    else .ret i

/-- `fn substring(str: &Vec<char>, start: usize, end: usize) -> String`:
`str.iter().skip(start).take(end-start).collect()`. -/
def substring (str : List Char) (start e : Nat) : String :=
  String.mk ((str.drop start).take (e - start))

/-- The local state of one `path` scan: current position, in-progress path,
the `in_key` flag, and the context stack (Rust locals `pos`, `path`,
`in_key`, `current`). -/
structure ScanState where
  pos : Nat
  path : List Index
  in_key : Bool
  current : List Current
deriving DecidableEq, Repr

/-- Result of a scan step or of the whole scan loop. -/
inductive StepRes where
  | ok (s : ScanState)
  | panicked
  | fuelOut
deriving DecidableEq, Repr

/-- One iteration of the `while pos < offset && pos < chars.len()` loop body of
`pub fn path` in src/lib.rs, for a position inside the buffer.  The final
`if pos == start_pos { pos += 1 }` of the source is folded into each branch:
only the key-consuming quote branch moves `pos` elsewhere (`pos = i`).
The `Array` comma branch computes `path.len() - 1` and indexes with it, which
panics when the path is empty: that is the `panicked` case. -/
def scanStep (chars : List Char) (s : ScanState) (h : s.pos < chars.length) : StepRes :=
  let c := chars.get ⟨s.pos, h⟩
  if c = '"' then
    match end_quote chars (chars.length + 1) (s.pos + 1) with
    | .fuelOut => .fuelOut
    | .panicked => .panicked
    | .ret i =>
      let key := substring chars (s.pos + 1) i
      if s.current.getLast? = some Current.Object ∧ s.in_key = true then
        .ok ⟨i, s.path ++ [Index.Object key], false, s.current⟩
      else
        .ok ⟨s.pos + 1, s.path, s.in_key, s.current⟩
  else if c = '{' then
    .ok ⟨s.pos + 1, s.path, true, s.current ++ [Current.Object]⟩
  else if c = '[' then
    .ok ⟨s.pos + 1, s.path ++ [Index.Array 0], s.in_key, s.current ++ [Current.Array]⟩
  else if c = '}' then
    .ok ⟨s.pos + 1, s.path.dropLast, s.in_key, s.current.dropLast⟩
  else if c = ']' then
    .ok ⟨s.pos + 1, s.path.dropLast, s.in_key, s.current.dropLast⟩
  else if c = ',' then
    match s.current.getLast? with
    | some Current.Object => .ok ⟨s.pos + 1, s.path.dropLast, true, s.current⟩
    | some Current.Array =>
      match s.path.getLast? with
      | some last => .ok ⟨s.pos + 1, s.path.dropLast ++ [Index.increment last], s.in_key, s.current⟩
      | none => .panicked
    | some Current.None => .ok ⟨s.pos + 1, s.path, s.in_key, s.current⟩
    | none => .ok ⟨s.pos + 1, s.path, s.in_key, s.current⟩
  else
    .ok ⟨s.pos + 1, s.path, s.in_key, s.current⟩

/-- The `while pos < offset && pos < chars.len()` loop of `pub fn path`.
`fuel` bounds the number of iterations; the position strictly increases each
iteration, so `chars.length + 1` iterations always suffice (proved in
`scanLoop_no_fuelOut`). -/
def scanLoop (chars : List Char) (offset : Nat) (fuel : Nat) (s : ScanState) : StepRes :=
  match fuel with
  | 0 => if s.pos < offset ∧ s.pos < chars.length then .fuelOut else .ok s
  | fuel + 1 =>
    if h : s.pos < offset ∧ s.pos < chars.length then
      match scanStep chars s h.2 with
      | .ok s' => scanLoop chars offset fuel s'
      | .panicked => .panicked
      | .fuelOut => .fuelOut
    else .ok s

/-- Modelled from the spec: the structured error of the external validator,
`SyntaxError{message, position}` (section 6). -/
structure JsonError where
  message : String
  position : Nat
deriving DecidableEq, Repr

/-- Modelled from the spec: whitespace of the JSON grammar. -/
def isWs (c : Char) : Bool := c = ' ' || c = '\n' || c = '\r' || c = '\t'

/-- Modelled from the spec: hexadecimal digit, for unicode escapes. -/
def isHex (c : Char) : Bool :=
  c.isDigit || ('a' ≤ c && c ≤ 'f') || ('A' ≤ c && c ≤ 'F')

/-- Modelled from the spec: skip whitespace, tracking the character position. -/
def skipWs : List Char → Nat → List Char × Nat
  | [], p => ([], p)
  | c :: cs, p => if isWs c then skipWs cs (p + 1) else (c :: cs, p)

/-- Modelled from the spec: the remainder of a JSON string after its opening
quote, with the standard escapes. -/
def parseStringRest : List Char → Nat → Except JsonError (List Char × Nat)
  | [], p => .error ⟨"unterminated string", p⟩
  | c :: cs, p =>
    if c = '"' then .ok (cs, p + 1)
    else if c = '\\' then
      match cs with
      | [] => .error ⟨"truncated escape", p + 1⟩
      | e :: cs2 =>
        if e = '"' || e = '\\' || e = '/' || e = 'b' || e = 'f' || e = 'n' || e = 'r' || e = 't' then
          parseStringRest cs2 (p + 2)
        else if e = 'u' then
          match cs2 with
          | h1 :: h2 :: h3 :: h4 :: cs3 =>
            if isHex h1 && isHex h2 && isHex h3 && isHex h4 then
              parseStringRest cs3 (p + 6)
            else .error ⟨"invalid unicode escape", p + 2⟩
          | _ => .error ⟨"invalid unicode escape", p + 2⟩
        else .error ⟨"invalid escape", p + 1⟩
    else if c.val < 32 then .error ⟨"control character in string", p⟩
    else parseStringRest cs (p + 1)

/-- Modelled from the spec: consume a run of decimal digits. -/
def parseDigits : List Char → Nat → List Char × Nat
  | [], p => ([], p)
  | c :: cs, p => if c.isDigit then parseDigits cs (p + 1) else (c :: cs, p)

/-- Modelled from the spec: the optional fraction part of a JSON number. -/
def parseFrac (l : List Char) (p : Nat) : Except JsonError (List Char × Nat) :=
  match l with
  | '.' :: c :: cs =>
    if c.isDigit then .ok (parseDigits cs (p + 2))
    else .error ⟨"expected digit after decimal point", p + 1⟩
  | ['.'] => .error ⟨"expected digit after decimal point", p + 1⟩
  | _ => .ok (l, p)

/-- Modelled from the spec: the optional exponent part of a JSON number. -/
def parseExp (l : List Char) (p : Nat) : Except JsonError (List Char × Nat) :=
  match l with
  | c :: cs =>
    if c = 'e' || c = 'E' then
      match (match cs with
             | s :: cs2 => if s = '+' || s = '-' then (cs2, p + 2) else (s :: cs2, p + 1)
             | [] => ([], p + 1) : List Char × Nat) with
      | (d :: cs3, p1) =>
        if d.isDigit then .ok (parseDigits cs3 (p1 + 1))
        else .error ⟨"expected digit in exponent", p1⟩
      | ([], p1) => .error ⟨"expected digit in exponent", p1⟩
    else .ok (c :: cs, p)
  | [] => .ok ([], p)

/-- Modelled from the spec: a JSON number (sign, integer part, fraction, exponent). -/
def parseNumber (l : List Char) (p : Nat) : Except JsonError (List Char × Nat) :=
  match (match l with
         | '-' :: cs => (cs, p + 1)
         | _ => (l, p) : List Char × Nat) with
  | ('0' :: cs, p1) =>
    match parseFrac cs (p1 + 1) with
    | .error e => .error e
    | .ok (l2, p2) => parseExp l2 p2
  | (c :: cs, p1) =>
    if c.isDigit then
      match parseDigits cs (p1 + 1) with
      | (l2, p2) =>
        match parseFrac l2 p2 with
        | .error e => .error e
        | .ok (l3, p3) => parseExp l3 p3
    else .error ⟨"invalid number", p1⟩
  | ([], p1) => .error ⟨"expected digits", p1⟩

mutual

/-- Modelled from the spec: one JSON value (object, array, string, number,
true, false or null).  `fuel` bounds the recursion depth. -/
def parseValue : Nat → List Char → Nat → Except JsonError (List Char × Nat)
  | 0, _, p => .error ⟨"input too deeply nested", p⟩
  | fuel + 1, l, p =>
    match l with
    | [] => .error ⟨"expected a value", p⟩
    | c :: cs =>
      if c = '"' then parseStringRest cs (p + 1)
      else if c = '{' then
        match skipWs cs (p + 1) with
        | ('}' :: cs2, p1) => .ok (cs2, p1 + 1)
        | (l1, p1) => parseMembers fuel l1 p1
      else if c = '[' then
        match skipWs cs (p + 1) with
        | (']' :: cs2, p1) => .ok (cs2, p1 + 1)
        | (l1, p1) => parseElements fuel l1 p1
      else if c = 't' then
        match cs with
        | 'r' :: 'u' :: 'e' :: cs2 => .ok (cs2, p + 4)
        | _ => .error ⟨"invalid literal", p⟩
      else if c = 'f' then
        match cs with
        | 'a' :: 'l' :: 's' :: 'e' :: cs2 => .ok (cs2, p + 5)
        | _ => .error ⟨"invalid literal", p⟩
      else if c = 'n' then
        match cs with
        | 'u' :: 'l' :: 'l' :: cs2 => .ok (cs2, p + 4)
        | _ => .error ⟨"invalid literal", p⟩
      else if c = '-' || c.isDigit then parseNumber (c :: cs) p
      else .error ⟨"unexpected character", p⟩
termination_by structural fuel _ _ => fuel

/-- Modelled from the spec: the members of a non-empty object, positioned at
the first key, up to and including the closing brace. -/
def parseMembers : Nat → List Char → Nat → Except JsonError (List Char × Nat)
  | 0, _, p => .error ⟨"input too deeply nested", p⟩
  | fuel + 1, l, p =>
    match l with
    | '"' :: cs =>
      match parseStringRest cs (p + 1) with
      | .error e => .error e
      | .ok (l1, p1) =>
        match skipWs l1 p1 with
        | (':' :: cs2, p2) =>
          match parseElement fuel cs2 (p2 + 1) with
          | .error e => .error e
          | .ok (l3, p3) =>
            match l3 with
            | ',' :: cs3 =>
              match skipWs cs3 (p3 + 1) with
              | (l4, p4) => parseMembers fuel l4 p4
            | '}' :: cs3 => .ok (cs3, p3 + 1)
            | _ => .error ⟨"expected comma or closing brace", p3⟩
        | (_, p2) => .error ⟨"expected colon", p2⟩
    | _ => .error ⟨"expected object key", p⟩
termination_by structural fuel _ _ => fuel

/-- Modelled from the spec: the elements of a non-empty array, up to and
including the closing bracket. -/
def parseElements : Nat → List Char → Nat → Except JsonError (List Char × Nat)
  | 0, _, p => .error ⟨"input too deeply nested", p⟩
  | fuel + 1, l, p =>
    match parseElement fuel l p with
    | .error e => .error e
    | .ok (l1, p1) =>
      match l1 with
      | ',' :: cs => parseElements fuel cs (p1 + 1)
      | ']' :: cs => .ok (cs, p1 + 1)
      | _ => .error ⟨"expected comma or closing bracket", p1⟩
termination_by structural fuel _ _ => fuel

/-- Modelled from the spec: an element, i.e. a value with surrounding whitespace. -/
def parseElement : Nat → List Char → Nat → Except JsonError (List Char × Nat)
  | 0, _, p => .error ⟨"input too deeply nested", p⟩
  | fuel + 1, l, p =>
    match skipWs l p with
    | (l1, p1) =>
      match parseValue fuel l1 p1 with
      | .error e => .error e
      | .ok (l2, p2) => .ok (skipWs l2 p2)
termination_by structural fuel _ _ => fuel

end

/-- Modelled from the spec: the external validator collaborator
(`oxidized_json_checker::validate_str`), which confirms the full text is
syntactically valid JSON and otherwise reports a structured error.  The fuel
`4 * length + 8` exceeds the number of parser calls possible on the input. -/
def validate (l : List Char) : Except JsonError Unit :=
  match parseElement (4 * l.length + 8) l 0 with
  | .error e => .error e
  | .ok ([], _) => .ok ()
  | .ok (_ :: _, p) => .error ⟨"trailing characters", p⟩

/-- Result of `pub fn path`: `Ok(Vec<Index>)`, the validator error, or a panic
of the scanning code. -/
inductive PathResult where
  | ok (p : List Index)
  | error (e : JsonError)
  | panicked
deriving DecidableEq, Repr

/-- `pub fn path(text: &str, offset: usize)` from src/lib.rs: validate, then
scan from position 0 with an empty path, `in_key = false` and the context
stack holding the `None` sentinel.  The `fuelOut` branch is unreachable
(`scanLoop_no_fuelOut`); it is mapped to `panicked` only for totality. -/
def path (text : String) (offset : Nat) : PathResult :=
  match validate text.toList with
  | .error e => .error e
  | .ok _ =>
    match scanLoop text.toList offset (text.toList.length + 1) ⟨0, [], false, [Current.None]⟩ with
    | .ok s => .ok s.path
    | .panicked => .panicked
    | .fuelOut => .panicked

/-- `fn dots(p: &Vec<Index>) -> String`: start from the dollar sign and append
a dot and the rendering of each segment in order. -/
def dots (p : List Index) : String :=
  p.foldl (fun dotted i => dotted ++ "." ++ Index.fmt i) ("$")

/-- Result of `pub fn dot_path`. -/
inductive DotResult where
  | ok (s : String)
  | error (e : JsonError)
  | panicked
deriving DecidableEq, Repr

/-- `pub fn dot_path(text: &str, offset: usize)` from src/lib.rs:
`let p = path(text, offset)?; Ok(dots(&p))`. -/
def dot_path (text : String) (offset : Nat) : DotResult :=
  match path text offset with
  | .ok p => .ok (dots p)
  | .error e => .error e
  | .panicked => .panicked

/-- The segments part of the renderer contract, following the words of the
spec (section 4.2): one `.segment` per Index in order, an `Array` segment as
the decimal string of its integer, an `Object` segment as its raw key text. -/
def dotsSegs : List Index → String
  | [] => ""
  | Index.Array i :: rest => "." ++ toString i ++ dotsSegs rest
  | Index.Object key :: rest => "." ++ key ++ dotsSegs rest

/-- The renderer contract, following the words of the spec (section 4.2):
a string beginning with the dollar sign followed by the segments, with the
empty path rendering as exactly the dollar sign and no trailing separator. -/
def dotsSpec (p : List Index) : String := "$" ++ dotsSegs p

/-! ### Test documents used by the claim theorems -/

/-- A valid document with an empty object followed by another array element. -/
def docEmptyObjComma : String := "[\x7b\x7d, 1]"

/-- A valid document whose single key consists of two escaped backslashes. -/
def docEscEscKey : String := "\x7b\"\\\\\\\\\": 1\x7d"

/-- A minimal one-key object. -/
def docSimpleObj : String := "\x7b\"a\": 1\x7d"

/-- An array holding one string value that contains a comma. -/
def docArrCommaStr : String := "[\"a,b\"]"

/-- An array holding a string value that contains an opening bracket,
followed by a second element. -/
def docArrBracketStr : String := "[\"[\",1]"

/-- The nested document of scenario 1 of the spec. -/
def docNested : String :=
  "[9, \x7b\"name\": \"b\", \"fields\": [null, null, 87, 4], \"path\": \"file.txt\"\x7d]"

/-- Scenario 5 of the spec: a key containing a single escaped quote. -/
def docEscKey : String := "\x7b\"a\\\"b\": 1\x7d"

/-- A valid document whose key is an escaped backslash, an escaped quote and
the letter y. -/
def docBadKey : String := "\x7b\"\\\\\\\"y\": 1\x7d"

/-- Scenario 4 of the spec: a malformed document with a missing value. -/
def docMalformed : String := "\x7b\"a\": \x7d"

/-- The initial scan state of `pub fn path`. -/
def initState : ScanState := ⟨0, [], false, [Current.None]⟩

/-! ### Helper lemmas -/

/-- The index returned by `end_quote` is at least the start index. -/
theorem end_quote_ge (chars : List Char) (fuel : Nat) :
    ∀ i r, end_quote chars fuel i = EQRes.ret r → i ≤ r := by
  induction fuel with
  | zero =>
    intro i r h
    simp only [end_quote] at h
    split at h
    · exact absurd h (by simp)
    · cases h; omega
  | succ fuel ih =>
    intro i r h
    simp only [end_quote] at h
    split at h
    · split at h
      · split at h
        · split at h
          · cases h; omega
          · have := ih (i + 3) r h; omega
        · exact absurd h (by simp)
      · split at h
        · cases h; omega
        · have := ih (i + 1) r h; omega
    · cases h; omega

/-- With a budget covering the distance to the end of the buffer, `end_quote`
never runs out of fuel: the loop index grows by at least one per iteration. -/
theorem end_quote_no_fuelOut (chars : List Char) (fuel : Nat) :
    ∀ i, chars.length ≤ i + fuel → end_quote chars fuel i ≠ EQRes.fuelOut := by
  induction fuel with
  | zero =>
    intro i hle
    simp only [end_quote]
    have hnot : ¬ i < chars.length := by omega
    simp [hnot]
  | succ fuel ih =>
    intro i hle
    simp only [end_quote]
    split
    · split
      · split
        · split
          · simp
          · exact ih (i + 3) (by omega)
        · simp
      · split
        · simp
        · exact ih (i + 1) (by omega)
    · simp

/-- Every successful scan step strictly advances the position: the Rust loop
body either leaves `pos` unchanged and then adds one, or jumps it to the end
of the key just consumed, which lies further right. -/
theorem scanStep_pos (chars : List Char) (s s' : ScanState) (h : s.pos < chars.length)
    (hs : scanStep chars s h = StepRes.ok s') : s.pos < s'.pos := by
  simp only [scanStep] at hs
  split at hs
  · -- quote case: split on the end_quote result (fuelOut, panicked, ret)
    split at hs
    · exact absurd hs (by simp)
    · exact absurd hs (by simp)
    · rename_i i heq
      have hge := end_quote_ge chars (chars.length + 1) (s.pos + 1) i heq
      split at hs <;> cases hs
      · exact Nat.lt_of_lt_of_le (Nat.lt_succ_self s.pos) hge
      · exact Nat.lt_succ_self s.pos
  · -- remaining if-chain
    split at hs
    · cases hs; exact Nat.lt_succ_self s.pos
    · split at hs
      · cases hs; exact Nat.lt_succ_self s.pos
      · split at hs
        · cases hs; exact Nat.lt_succ_self s.pos
        · split at hs
          · cases hs; exact Nat.lt_succ_self s.pos
          · split at hs
            · -- comma case: split on the context stack top
              split at hs
              · cases hs; exact Nat.lt_succ_self s.pos
              · split at hs
                · cases hs; exact Nat.lt_succ_self s.pos
                · exact absurd hs (by simp)
              · cases hs; exact Nat.lt_succ_self s.pos
              · cases hs; exact Nat.lt_succ_self s.pos
            · cases hs; exact Nat.lt_succ_self s.pos

/-- A scan step never exhausts its internal `end_quote` budget. -/
theorem scanStep_no_fuelOut (chars : List Char) (s : ScanState) (h : s.pos < chars.length) :
    scanStep chars s h ≠ StepRes.fuelOut := by
  simp only [scanStep]
  split
  · -- quote case
    split
    · rename_i heq
      exact absurd heq (end_quote_no_fuelOut chars (chars.length + 1) (s.pos + 1) (by omega))
    · simp
    · split <;> simp
  · split
    · simp
    · split
      · simp
      · split
        · simp
        · split
          · simp
          · split
            · split
              · simp
              · split <;> simp
              · simp
              · simp
            · simp

/-- With a budget covering the distance from the current position to the
stopping point, the scan loop never runs out of fuel: the position strictly
increases each iteration. -/
theorem scanLoop_no_fuelOut (chars : List Char) (offset : Nat) (fuel : Nat) :
    ∀ s : ScanState, offset ≤ s.pos + fuel ∨ chars.length ≤ s.pos + fuel →
      scanLoop chars offset fuel s ≠ StepRes.fuelOut := by
  induction fuel with
  | zero =>
    intro s hle
    simp only [scanLoop]
    have hnot : ¬ (s.pos < offset ∧ s.pos < chars.length) := by
      rintro ⟨h1, h2⟩
      omega
    simp [hnot]
  | succ fuel ih =>
    intro s hle
    simp only [scanLoop]
    split
    · rename_i hand
      cases hstep : scanStep chars s hand.2 with
      | ok s' =>
        simp only [hstep]
        exact ih s' (by have := scanStep_pos chars s s' hand.2 hstep; omega)
      | panicked => simp [hstep]
      | fuelOut => exact absurd hstep (scanStep_no_fuelOut chars s hand.2)
    · simp

/-- The loop budget used by `pub fn path` is always sufficient, so the
`panicked` results proved below are genuine panics of the source, never an
artifact of the fuel embedding. -/
theorem path_fuel_sufficient (text : String) (offset : Nat) :
    scanLoop text.toList offset (text.toList.length + 1) initState ≠ StepRes.fuelOut :=
  scanLoop_no_fuelOut text.toList offset (text.toList.length + 1) initState (by
    simp only [initState]
    omega)

/-- Folding the renderer step over a path appends exactly the spec segments. -/
theorem dots_foldl (p : List Index) :
    ∀ acc : String,
      p.foldl (fun dotted i => dotted ++ "." ++ Index.fmt i) acc = acc ++ dotsSegs p := by
  induction p with
  | nil => intro acc; simp [dotsSegs]
  | cons i rest ih =>
    intro acc
    rw [List.foldl_cons, ih]
    cases i <;> simp [dotsSegs, Index.fmt, String.append_assoc]

/-- The implemented renderer agrees with the contract of spec section 4.2. -/
theorem dots_eq_dotsSpec (p : List Index) : dots p = dotsSpec p := by
  simpa [dots, dotsSpec] using dots_foldl p ("$")

/-- Every rendered path starts with the dollar character. -/
theorem dots_head (p : List Index) : (dots p).data.head? = some '$' := by
  rw [dots_eq_dotsSpec, dotsSpec, String.data_append]
  rfl

/-! ### Claim theorems -/

/-- Claim C1: the claimed property — on every validator-accepted document and
offset, `path` terminates normally and returns Ok — fails on the code.  The
document consisting of an empty object followed by a second array element is
accepted by the validator, yet the scan panics: closing the empty object pops
the enclosing array's Index off the path (the hyphen branch for a closing
brace pops unconditionally although the object never pushed), and the
following comma in Array context computes the predecessor of the length of
the now-empty path, a usize underflow.  The middle conjunct shows the panic
arises in the scan loop itself, not from fuel exhaustion. -/
theorem claim1_eval :
    validate docEmptyObjComma.toList = Except.ok () ∧
    scanLoop docEmptyObjComma.toList 1000 (docEmptyObjComma.toList.length + 1) initState =
      StepRes.panicked ∧
    path docEmptyObjComma 1000 = PathResult.panicked :=
  ⟨rfl, rfl, rfl⟩

/-- Claim C2: the claimed property — offset at or beyond the text length gives
Ok with an empty path — fails on the code.  The validator accepts the object
whose single key is two escaped backslashes, but `end_quote` mis-steps through
the consecutive escapes, skips the key's real closing quote, and `path`
returns a non-empty path holding one garbage key that spans to the end of the
text; `dot_path` is not the bare dollar sign either. -/
theorem claim2_eval :
    validate docEscEscKey.toList = Except.ok () ∧
    path docEscEscKey 1000 = PathResult.ok [Index.Object ("\\\\\\\\\": 1\x7d")] ∧
    dot_path docEscEscKey 1000 = DotResult.ok ("$.\\\\\\\\\": 1\x7d") ∧
    path docEscEscKey 1000 ≠ PathResult.ok [] :=
  ⟨rfl, rfl, rfl, by decide⟩

/-- Claim C3 counterexample: after the very first step of the scan of the
validator-accepted document containing one object and one key, one container
is open (context depth two with the sentinel) but the path is still empty, so
the claimed pair of equalities — path length equals open containers and
context depth equals that number plus one — cannot both hold at this step:
they would force path length + 1 to equal the context depth, which is false
here. -/
theorem claim3_counterexample :
    validate docSimpleObj.toList = Except.ok () ∧
    scanLoop docSimpleObj.toList 1 (docSimpleObj.toList.length + 1) initState =
      StepRes.ok ⟨1, [], true, [Current.None, Current.Object]⟩ ∧
    (match scanLoop docSimpleObj.toList 1 (docSimpleObj.toList.length + 1) initState with
     | StepRes.ok s => decide (s.path.length + 1 = s.current.length)
     | _ => true) = false :=
  ⟨rfl, rfl, rfl⟩

/-- Claim C3 as amended: the stacks evolve event-wise.  An opening bracket
pushes exactly one Index and one context entry; an opening brace pushes
exactly one context entry, no Index, and sets the key flag (the object's
Index arrives only when its key is scanned, so the path is one entry short of
the open-container count while a key is awaited); a closing brace or bracket
removes the last entry of both stacks; scanning a key under an object context
awaiting a key pushes exactly one Index and leaves the context stack
unchanged. -/
theorem claim3_steps (chars : List Char) (s s' : ScanState) (h : s.pos < chars.length)
    (hs : scanStep chars s h = StepRes.ok s') :
    (chars.get ⟨s.pos, h⟩ = '[' →
      s'.path.length = s.path.length + 1 ∧ s'.current.length = s.current.length + 1) ∧
    (chars.get ⟨s.pos, h⟩ = '{' →
      s'.path = s.path ∧ s'.current.length = s.current.length + 1 ∧ s'.in_key = true) ∧
    ((chars.get ⟨s.pos, h⟩ = '}' ∨ chars.get ⟨s.pos, h⟩ = ']') →
      s'.path = s.path.dropLast ∧ s'.current = s.current.dropLast) ∧
    (chars.get ⟨s.pos, h⟩ = '"' → s.current.getLast? = some Current.Object → s.in_key = true →
      s'.path.length = s.path.length + 1 ∧ s'.current = s.current ∧ s'.in_key = false) := by
  refine ⟨?_, ?_, ?_, ?_⟩
  · intro hc
    simp only [scanStep] at hs
    rw [hc] at hs
    simp at hs
    subst hs
    simp
  · intro hc
    simp only [scanStep] at hs
    rw [hc] at hs
    simp at hs
    subst hs
    simp
  · intro hc
    rcases hc with hc | hc <;>
      (simp only [scanStep] at hs; rw [hc] at hs; simp at hs; subst hs; simp)
  · intro hc hlast hkey
    simp only [scanStep] at hs
    rw [hc] at hs
    split at hs
    · -- the quote branch: split on the end_quote result
      split at hs
      · exact absurd hs (by simp)
      · exact absurd hs (by simp)
      · rw [if_pos ⟨hlast, hkey⟩] at hs
        cases hs
        simp
    · rename_i hne
      exact absurd rfl hne

/-- Witness for the amended claim C3, at the opening bracket of a one-element
array: the path and the context stack each grow by one entry. -/
theorem claim3_steps_witness :
    ((⟨1, [Index.Array 0], false, [Current.None, Current.Array]⟩ : ScanState).path.length =
      ([] : List Index).length + 1) ∧
    ((⟨1, [Index.Array 0], false, [Current.None, Current.Array]⟩ : ScanState).current.length =
      ([Current.None] : List Current).length + 1) := by
  have h := claim3_steps ['['] ⟨0, [], false, [Current.None]⟩
    ⟨1, [Index.Array 0], false, [Current.None, Current.Array]⟩ (by decide) rfl
  exact h.1 rfl

/-- Claim C4: structural characters inside string values are processed as
structural tokens, because only object keys are skipped whole.  For the array
holding the string value with an embedded comma, the offset of the character
after the comma yields an array index of one, even though that character lies
inside the single element at index zero; and a bracket inside a string value
pushes a spurious nesting level. -/
theorem claim4_eval :
    path docArrCommaStr 4 = PathResult.ok [Index.Array 1] ∧
    docArrCommaStr.toList[4]? = some 'b' ∧
    path docArrBracketStr 5 = PathResult.ok [Index.Array 0, Index.Array 1] ∧
    docArrBracketStr.toList[5]? = some '1' :=
  ⟨rfl, rfl, rfl, rfl⟩

/-- Claim C5: scenario 1 of the spec.  At the offset of the substring 87
(position 41), `path` returns the array-object-array chain and `dot_path`
renders it as the expected dotted string. -/
theorem claim5_eval :
    docNested.toList[41]? = some '8' ∧
    docNested.toList[42]? = some '7' ∧
    path docNested 41 = PathResult.ok [Index.Array 1, Index.Object ("fields"), Index.Array 2] ∧
    dot_path docNested 41 = DotResult.ok ("$.1.fields.2") :=
  ⟨rfl, rfl, rfl, rfl⟩

/-- Claim C6: the concrete scenario 5 holds (first two conjuncts: with the key
containing one escaped quote, the path at the value holds the verbatim key),
but the general escape-awareness claim fails on the code.  For the
validator-accepted document whose key is an escaped backslash, an escaped
quote and the letter y, `end_quote` lands on the second backslash of the
escaped-backslash pair, treats it as an escape, and then stops at the escaped
quote: the key is extracted as three backslashes instead of the verbatim key
text, so an escaped quote can terminate the key early. -/
theorem claim6_eval :
    path docEscKey 9 = PathResult.ok [Index.Object ("a\\\"b")] ∧
    docEscKey.toList[9]? = some '1' ∧
    validate docBadKey.toList = Except.ok () ∧
    docBadKey.toList[10]? = some '1' ∧
    path docBadKey 10 = PathResult.ok [Index.Object ("\\\\\\")] :=
  ⟨rfl, rfl, rfl, rfl, rfl⟩

/-- Claim C7: the comma step.  With Object as the innermost open context the
last path entry is removed (the stale key) and the key flag is set; with
Array and a non-empty path the last entry is incremented in place; with the
None sentinel nothing changes. -/
theorem claim7_comma (chars : List Char) (s : ScanState) (h : s.pos < chars.length)
    (hc : chars.get ⟨s.pos, h⟩ = ',') :
    (s.current.getLast? = some Current.Object →
      scanStep chars s h = StepRes.ok ⟨s.pos + 1, s.path.dropLast, true, s.current⟩) ∧
    (s.current.getLast? = some Current.Array →
      ∀ hp : s.path ≠ [],
        scanStep chars s h =
          StepRes.ok ⟨s.pos + 1, s.path.dropLast ++ [(s.path.getLast hp).increment],
            s.in_key, s.current⟩) ∧
    (s.current.getLast? = some Current.None →
      scanStep chars s h = StepRes.ok ⟨s.pos + 1, s.path, s.in_key, s.current⟩) := by
  refine ⟨?_, ?_, ?_⟩
  · intro hlast
    simp only [scanStep]
    rw [hc]
    simp [hlast]
  · intro hlast hp
    simp only [scanStep]
    rw [hc]
    simp [hlast, List.getLast?_eq_getLast s.path hp]
  · intro hlast
    simp only [scanStep]
    rw [hc]
    simp [hlast]

/-- Witness for claim C7: the three comma behaviours at concrete states. -/
theorem claim7_comma_witness :
    scanStep [','] ⟨0, [Index.Object ("k")], false, [Current.None, Current.Object]⟩ (by decide) =
      StepRes.ok ⟨1, [], true, [Current.None, Current.Object]⟩ ∧
    scanStep [','] ⟨0, [Index.Array 0], false, [Current.None, Current.Array]⟩ (by decide) =
      StepRes.ok ⟨1, [Index.Array 1], false, [Current.None, Current.Array]⟩ ∧
    scanStep [','] ⟨0, [], false, [Current.None]⟩ (by decide) =
      StepRes.ok ⟨1, [], false, [Current.None]⟩ := by
  refine ⟨?_, ?_, ?_⟩
  · exact (claim7_comma [','] ⟨0, [Index.Object ("k")], false, [Current.None, Current.Object]⟩
      (by decide) rfl).1 rfl
  · exact (claim7_comma [','] ⟨0, [Index.Array 0], false, [Current.None, Current.Array]⟩
      (by decide) rfl).2.1 rfl (by decide)
  · exact (claim7_comma [','] ⟨0, [], false, [Current.None]⟩ (by decide) rfl).2.2 rfl

/-- Claim C8: the renderer contract.  The empty path renders as exactly the
dollar sign; every path renders as the dollar sign followed by one dot-segment
per Index in order (an Array segment as the decimal string of its integer, an
Object segment as its raw key text, no trailing separator; `dotsSpec` states
that contract in the words of the spec); and every successful `dot_path`
result begins with the dollar character. -/
theorem claim8_renderer (t : String) (o : Nat) (str : String)
    (hs : dot_path t o = DotResult.ok str) :
    dots [] = "$" ∧ (∀ p, dots p = dotsSpec p) ∧ str.data.head? = some '$' := by
  refine ⟨rfl, dots_eq_dotsSpec, ?_⟩
  cases hpq : path t o with
  | ok p =>
    simp only [dot_path, hpq] at hs
    cases hs
    exact dots_head p
  | error e => simp [dot_path, hpq] at hs
  | panicked => simp [dot_path, hpq] at hs

/-- Witness for claim C8, at scenario 1 of the spec. -/
theorem claim8_renderer_witness :
    (("$.1.fields.2") : String).data.head? = some '$' :=
  (claim8_renderer docNested 41 ("$.1.fields.2") rfl).2.2

/-- Claim C9: both entry points invoke the validator first and return its
error unchanged when it rejects, so no path is computed for rejected input. -/
theorem claim9_validate_first (t : String) (o : Nat) (e : JsonError)
    (h : validate t.toList = Except.error e) :
    path t o = PathResult.error e ∧ dot_path t o = DotResult.error e := by
  have hp : path t o = PathResult.error e := by
    unfold path
    rw [h]
  refine ⟨hp, ?_⟩
  unfold dot_path
  rw [hp]

/-- Witness for claim C9: the malformed document of scenario 4 is rejected by
the validator at the position of its missing value, and both entry points
surface that same error. -/
theorem claim9_validate_first_witness :
    path docMalformed 3 = PathResult.error ⟨"unexpected character", 6⟩ ∧
    dot_path docMalformed 3 = DotResult.error ⟨"unexpected character", 6⟩ :=
  claim9_validate_first docMalformed 3 ⟨"unexpected character", 6⟩ rfl

/-- Claim C10: purity and determinism.  The embedding of `path` and `dot_path`
is a pure function of the text and the offset alone — the Rust source keeps
its path, context stack and key flag as locals of one call and touches no
shared state — so identical arguments always yield identical results. -/
theorem claim10_pure (t1 t2 : String) (o1 o2 : Nat) (ht : t1 = t2) (ho : o1 = o2) :
    path t1 o1 = path t2 o2 ∧ dot_path t1 o1 = dot_path t2 o2 := by
  subst ht
  subst ho
  exact ⟨rfl, rfl⟩

/-- Witness for claim C10 at a concrete document and offset. -/
theorem claim10_pure_witness :
    path docSimpleObj 3 = path docSimpleObj 3 ∧
    dot_path docSimpleObj 3 = dot_path docSimpleObj 3 :=
  claim10_pure docSimpleObj docSimpleObj 3 3 rfl rfl

end JsonPos
